import Mathlib

/-!
Verification of the `ischema2tsv.py` catalog-dumping tool.

This file gives a shallow embedding of the program in Lean 4 and proves
properties of the embedded definitions.  The embedding follows the Python
source closely:

* `ColumnDef` is the column-descriptor class; its Python methods
  (`__init__`, `set_column_type`, `set_constraint`, `to_tuple`) become
  Lean functions that pass the record explicitly.
* The Python regex `^(.+)\((.*)\)$` used by `set_column_type` is embedded
  by `column_type_match`: `.` matches any character except a newline,
  `(.+)`/`(.*)` are greedy (the regex engine backtracks from the longest
  prefix, so the literal `\(` is matched at the *largest* possible
  position), and `$` matches at the end of the string or just before a
  trailing newline.
* The database is abstracted by the data the three catalog queries would
  return (`TableInfo`, `ColumnRow`, `ConstraintRow`); `main_run` produces
  the exact list of lines `main` prints on stdout.
* Resource (cursor/connection) acquisition and release is modelled by
  `main_resource_trace`, an event trace of the `with` blocks and
  `try/finally` clauses in the source.
-/

/-! ## The column descriptor (`class ColumnDef`) -/

/-- The eight attributes a `ColumnDef` instance carries after `__init__`
(the field `columun_default` keeps the source's spelling). -/
structure ColumnDef where
  table_name : String
  column_name : String
  column_type : String
  column_size : String
  is_nullable : String
  columun_default : String
  is_primary_key : String
  foreign_key : String
deriving DecidableEq, Repr

/-- The attempt of the sub-pattern `(.*)\)$` on the remainder of the input,
returning group 2 on success.  `$` matches at the end or just before one
trailing newline; `.` does not match a newline; `\)` consumes the literal
`)` right before the `$` position, so group 2 is everything before that
final parenthesis. -/
def reMatchTail (cs : List Char) : Option (List Char) :=
  let ds := if cs.getLast? = some '\n' then cs.dropLast else cs
  if ds.getLast? = some ')' ∧ '\n' ∉ ds.dropLast then some ds.dropLast else none

/-- The positions at which the regex engine could match the literal `\(` of
`^(.+)\((.*)\)$`: group 1 (`.+`, at least one non-newline character) fills
positions `0..k-1` and the rest of the pattern matches the remainder.
Backtracking from the longest group 1 means the engine settles on the
largest such `k`. -/
def splitCandidates (cs : List Char) : List Nat :=
  (List.range cs.length).filter fun k =>
    decide (1 ≤ k ∧ cs[k]? = some '(' ∧ '\n' ∉ cs.take k ∧
      (reMatchTail (cs.drop (k + 1))).isSome = true)

/-- Matching `ColumnDef.column_type_pattern`, i.e. `re.match` of
`^(.+)\((.*)\)$`: greedy `(.+)` picks the largest candidate split position
(the last element of `splitCandidates`, which is increasing), and the two
captured groups are returned. -/
def column_type_match (cs : List Char) : Option (List Char × List Char) :=
  match (splitCandidates cs).getLast? with
  | none => none
  | some k =>
    match reMatchTail (cs.drop (k + 1)) with
    | some g2 => some (cs.take k, g2)
    | none => none

/-- `ColumnDef.set_column_type`: if the declared type matches
`^(.+)\((.*)\)$` then `column_type` gets group 1 and `column_size`
group 2, otherwise `column_type` is the declared type unchanged and
`column_size` is empty. -/
def ColumnDef.set_column_type (self : ColumnDef) (column_type : String) : ColumnDef :=
  match column_type_match column_type.data with
  | some (g1, g2) => { self with column_type := String.mk g1, column_size := String.mk g2 }
  | none => { self with column_type := column_type, column_size := "" }

/-- `ColumnDef.__init__`: stores the identifying fields, runs
`set_column_type` on the declared type, maps a `None` catalog default
(`column_default is not None` test) to the empty string, and clears the
key flags. -/
def ColumnDef.init (table_name column_name column_type is_nullable : String)
    (column_default : Option String) : ColumnDef :=
  ColumnDef.set_column_type
    { table_name := table_name
      column_name := column_name
      column_type := ""
      column_size := ""
      is_nullable := is_nullable
      columun_default := column_default.getD ""
      is_primary_key := ""
      foreign_key := "" }
    column_type

/-- `ColumnDef.set_constraint`: `PRIMARY KEY` sets the flag to `"YES"`,
`FOREIGN KEY` overwrites `foreign_key` with `'{}.{}'.format(table_name,
column_name)` built from the arguments (the constraint row's referenced
table/column), and any other constraint type leaves the record unchanged. -/
def ColumnDef.set_constraint (self : ColumnDef)
    (constraint_type table_name column_name : String) : ColumnDef :=
  if constraint_type = "PRIMARY KEY" then
    { self with is_primary_key := "YES" }
  else if constraint_type = "FOREIGN KEY" then
    { self with foreign_key := table_name ++ "." ++ column_name }
  else
    self

/-- `ColumnDef.to_tuple`: the eight fields in the order they are joined
into an output line. -/
def ColumnDef.to_tuple (self : ColumnDef) : List String :=
  [self.table_name, self.column_name, self.column_type, self.column_size,
   self.is_nullable, self.columun_default, self.is_primary_key, self.foreign_key]

/-! ## The catalog data consumed by `main`

The three DAO classes issue read-only queries; `main` consumes only the
fetched rows, so the database is abstracted by those row lists. -/

/-- One row of `KeyColumnUsageDao.find_by_table_schema_and_table_name_and_column_name`:
`(T.CONSTRAINT_TYPE, K.REFERENCED_TABLE_NAME, K.REFERENCED_COLUMN_NAME)`. -/
structure ConstraintRow where
  constraint_type : String
  referenced_table_name : String
  referenced_column_name : String
deriving DecidableEq, Repr

/-- One row of `ColumnDao.find_by_table_schema_and_table_name`:
`(C.COLUMN_NAME, C.COLUMN_DEFAULT, C.IS_NULLABLE, C.COLUMN_TYPE)`, with the
catalog's NULL default as `none`. -/
structure ColumnRow where
  column_name : String
  column_default : Option String
  is_nullable : String
  column_type : String
deriving DecidableEq, Repr

/-- One base table returned by `TableDao.find_by_table_schema`, together
with what the two per-table queries return for it: its column rows in
`ORDER BY C.ORDINAL_POSITION` order, and the constraint rows the key-usage
query yields for each column name. -/
structure TableInfo where
  table_name : String
  columns : List ColumnRow
  usages : String → List ConstraintRow

/-- The constraint loop of `main`: `output.set_constraint(...)` applied to
each fetched usage row in order. -/
def applyConstraints (d : ColumnDef) (rows : List ConstraintRow) : ColumnDef :=
  rows.foldl
    (fun output row =>
      output.set_constraint row.constraint_type row.referenced_table_name
        row.referenced_column_name)
    d

/-- The body of `main`'s inner column loop: build the `ColumnDef`, apply
the column's constraint rows, and join the tuple with tabs. -/
def processColumn (t : TableInfo) (c : ColumnRow) : String :=
  let output := ColumnDef.init t.table_name c.column_name c.column_type
    c.is_nullable c.column_default
  let output := applyConstraints output (t.usages c.column_name)
  String.intercalate "\t" output.to_tuple

/-- The header line `main` prints first. -/
def headerLine : String :=
  String.intercalate "\t"
    ["Table", "Column", "Type", "Size", "Nullable", "Default", "PKEY", "FKEY"]

/-- The lines `main` writes to stdout.  The header is printed *before*
`create_connection` is entered; `conn = none` models
`mysql.connector.connect` raising (nothing after the header is printed),
`conn = some tables` a successful connection whose table query returned
`tables`. -/
def main_run (conn : Option (List TableInfo)) : List String :=
  headerLine ::
    match conn with
    | none => []
    | some tables => tables.flatMap fun t => t.columns.map (processColumn t)

/-! ## Resource acquisition/release trace

Each `with` block of `main` acquires a cursor; cursors are numbered in
order of acquisition.  `ColumnDao` and `KeyColumnUsageDao` call
`cursor.close()` in their `finally` clause; `TableDao`'s `finally` clause
is the bare expression `cursor.close` — an attribute access that does not
call the method — so no close event is emitted for its cursor.
`create_connection` closes the connection in its `finally` clause. -/

/-- A resource event: the connection or a numbered cursor is opened or
closed. -/
inductive REvent where
  | openConn : REvent
  | closeConn : REvent
  | openCur : Nat → REvent
  | closeCur : Nat → REvent
deriving DecidableEq, Repr

/-- Cursor events of the per-column `KeyColumnUsageDao` blocks of one
table: `k` columns, cursor numbers starting at `n`; each cursor is opened
and then closed (`cursor.close()` is called). -/
def colsTrace : Nat → Nat → List REvent
  | _, 0 => []
  | n, k + 1 => REvent.openCur n :: REvent.closeCur n :: colsTrace (n + 1) k

/-- Cursor events of the per-table loop: each table opens and closes one
`ColumnDao` cursor, then one `KeyColumnUsageDao` cursor per column. -/
def tablesTrace : List TableInfo → Nat → List REvent
  | [], _ => []
  | t :: ts, n =>
    REvent.openCur n :: REvent.closeCur n ::
      (colsTrace (n + 1) t.columns.length ++
        tablesTrace ts (n + 1 + t.columns.length))

/-- The resource trace of a run of `main` that completes normally: the
connection is opened, cursor 0 is the `TableDao` cursor (never closed,
since `TableDao`'s `finally` clause reads `cursor.close` without calling
it), then the per-table cursors, and finally `create_connection`'s
`finally` clause closes the connection. -/
def main_resource_trace (tables : List TableInfo) : List REvent :=
  REvent.openConn :: REvent.openCur 0 ::
    (tablesTrace tables 1 ++ [REvent.closeConn])

/-! ## The command line (`create_argparser`) -/

/-- One optional argument added by `create_argparser`: its short and long
flag strings and its default value. -/
structure OptSpec where
  short : String
  long : String
  defaultValue : String
deriving DecidableEq, Repr

/-- The four optional arguments of `create_argparser`, in the order they
are added; the `--user` default is `getpass.getuser()`, passed in here as
`current_user`. -/
def create_argparser_opts (current_user : String) : List OptSpec :=
  [{ short := "-u", long := "--user", defaultValue := current_user },
   { short := "-p", long := "--password", defaultValue := "" },
   { short := "-P", long := "--port", defaultValue := "3306" },
   { short := "-H", long := "--host", defaultValue := "localhost" }]

/-- The parsed argument namespace: one field per option plus the required
positional `database`. -/
structure Args where
  user : String
  password : String
  port : String
  host : String
  database : String
deriving DecidableEq, Repr

/-- Modelled from the spec: the core of the Python `argparse` library's
`parse_args` token scan for a parser with only single-value options (the
library itself is not part of the repository).  A token equal to an
option's short or long flag consumes the next token as that option's
value; an unrecognized token whose first character is `-` is an error;
every other token is collected as a positional argument. -/
def parseTokens (opts : List OptSpec) :
    List String → Except String (List (String × String) × List String)
  | [] => Except.ok ([], [])
  | a :: rest =>
    match opts.find? fun o => a = o.short ∨ a = o.long with
    | some o =>
      match rest with
      | [] => Except.error "expected one argument"
      | v :: rest' =>
        match parseTokens opts rest' with
        | Except.ok (assigns, positionals) =>
          Except.ok ((o.long, v) :: assigns, positionals)
        | Except.error e => Except.error e
    | none =>
      if a.data.head? = some '-' ∧ a ≠ "-" then
        Except.error "unrecognized arguments"
      else
        match parseTokens opts rest with
        | Except.ok (assigns, positionals) =>
          Except.ok (assigns, a :: positionals)
        | Except.error e => Except.error e

/-- The value of an option after the scan: `argparse` keeps the last
occurrence of a repeated flag, falling back to the declared default. -/
def optValue (assigns : List (String × String)) (long : String)
    (defaultValue : String) : String :=
  match (assigns.filter fun p => p.1 = long).getLast? with
  | some p => p.2
  | none => defaultValue

/-- Modelled from the spec: `create_argparser().parse_args(argv)`.  The
scan must succeed and yield exactly one positional (the required
`database`); a missing or surplus positional is an `argparse` error, on
which the library prints usage and exits with a nonzero status before
`main` touches the connection. -/
def parse_args (current_user : String) (argv : List String) : Except String Args :=
  match parseTokens (create_argparser_opts current_user) argv with
  | Except.error e => Except.error e
  | Except.ok (assigns, positionals) =>
    match positionals with
    | [db] =>
      Except.ok
        { user := optValue assigns "--user" current_user
          password := optValue assigns "--password" ""
          port := optValue assigns "--port" "3306"
          host := optValue assigns "--host" "localhost"
          database := db }
    | [] => Except.error "the following arguments are required: database"
    | _ => Except.error "unrecognized arguments"

/-- A whole process run: `main` parses the arguments first; on an
`argparse` error the process exits before printing anything on stdout and
before any connection attempt, otherwise it proceeds as `main_run`. -/
def run_cli (current_user : String) (argv : List String)
    (conn : Option (List TableInfo)) : List String :=
  match parse_args current_user argv with
  | Except.error _ => []
  | Except.ok _ => main_run conn

/-! ## Concrete sample data used to instantiate the theorems -/

/-- A sample descriptor. -/
def sampleDef : ColumnDef :=
  { table_name := "orders", column_name := "customer_id", column_type := "int"
    column_size := "", is_nullable := "YES", columun_default := ""
    is_primary_key := "", foreign_key := "" }

/-- A sample constraint-row sequence with a repeated `FOREIGN KEY`. -/
def sampleRows : List ConstraintRow :=
  [{ constraint_type := "FOREIGN KEY", referenced_table_name := "t1",
     referenced_column_name := "c1" },
   { constraint_type := "PRIMARY KEY", referenced_table_name := "x",
     referenced_column_name := "y" },
   { constraint_type := "FOREIGN KEY", referenced_table_name := "t2",
     referenced_column_name := "c2" }]

/-! ## Helper lemmas -/

/-- `set_column_type` only writes `column_type` and `column_size`. -/
theorem set_column_type_columun_default (d : ColumnDef) (s : String) :
    (d.set_column_type s).columun_default = d.columun_default := by
  unfold ColumnDef.set_column_type
  rcases column_type_match s.data with _ | ⟨g1, g2⟩ <;> rfl

/-- Unfolding one step of the constraint loop. -/
theorem applyConstraints_cons (d : ColumnDef) (r : ConstraintRow)
    (rs : List ConstraintRow) :
    applyConstraints d (r :: rs) =
      applyConstraints
        (d.set_constraint r.constraint_type r.referenced_table_name
          r.referenced_column_name) rs := rfl

/-- `set_constraint` leaves `foreign_key` alone unless the constraint type
is `FOREIGN KEY`. -/
theorem set_constraint_foreign_key_of_ne (d : ColumnDef) (ct tn cn : String)
    (h : ct ≠ "FOREIGN KEY") :
    (d.set_constraint ct tn cn).foreign_key = d.foreign_key := by
  unfold ColumnDef.set_constraint
  split_ifs <;> simp_all

/-- `set_constraint` leaves `is_primary_key` alone unless the constraint
type is `PRIMARY KEY`. -/
theorem set_constraint_is_primary_key_of_ne (d : ColumnDef) (ct tn cn : String)
    (h : ct ≠ "PRIMARY KEY") :
    (d.set_constraint ct tn cn).is_primary_key = d.is_primary_key := by
  unfold ColumnDef.set_constraint
  split_ifs <;> simp_all

/-- The `foreign_key` field after the constraint loop: the last
`FOREIGN KEY` row wins, and without such a row the field is untouched. -/
theorem applyConstraints_foreign_key (d : ColumnDef) (rows : List ConstraintRow) :
    (applyConstraints d rows).foreign_key =
      match (rows.filter fun row => row.constraint_type = "FOREIGN KEY").getLast? with
      | some r => r.referenced_table_name ++ "." ++ r.referenced_column_name
      | none => d.foreign_key := by
  induction rows generalizing d with
  | nil => rfl
  | cons r rs ih =>
    rw [applyConstraints_cons, ih]
    by_cases hfk : r.constraint_type = "FOREIGN KEY"
    · rw [List.filter_cons_of_pos (by simpa using hfk)]
      cases h : (rs.filter fun row => row.constraint_type = "FOREIGN KEY").getLast? with
      | none =>
        have hnil : (rs.filter fun row => row.constraint_type = "FOREIGN KEY") = [] :=
          List.getLast?_eq_none_iff.mp h
        rw [hnil]
        simp [ColumnDef.set_constraint, hfk]
      | some b =>
        rw [List.mem_getLast?_cons h]
    · rw [List.filter_cons_of_neg (by simpa using hfk)]
      cases h : (rs.filter fun row => row.constraint_type = "FOREIGN KEY").getLast? with
      | none => simp [set_constraint_foreign_key_of_ne d _ _ _ hfk]
      | some b => rfl

/-- The `is_primary_key` field after the constraint loop: it is `"YES"`
exactly when some `PRIMARY KEY` row occurs, and untouched otherwise. -/
theorem applyConstraints_is_primary_key (d : ColumnDef) (rows : List ConstraintRow) :
    (applyConstraints d rows).is_primary_key =
      if (rows.filter fun row => row.constraint_type = "PRIMARY KEY") = [] then
        d.is_primary_key
      else "YES" := by
  induction rows generalizing d with
  | nil => rfl
  | cons r rs ih =>
    rw [applyConstraints_cons, ih]
    by_cases hpk : r.constraint_type = "PRIMARY KEY"
    · rw [List.filter_cons_of_pos (by simpa using hpk)]
      simp only [List.cons_ne_nil, if_false, ite_false, reduceIte]
      split_ifs with h
      · simp [ColumnDef.set_constraint, hpk]
      · rfl
    · rw [List.filter_cons_of_neg (by simpa using hpk)]
      split_ifs with h
      · exact set_constraint_is_primary_key_of_ne d _ _ _ hpk
      · rfl

/-! ## Claim theorems -/

/-- C2: `set_constraint` sets `is_primary_key` to `"YES"` on a
`PRIMARY KEY` row, sets `foreign_key` to
`referenced_table ++ "." ++ referenced_column` from the constraint row's
values on a `FOREIGN KEY` row, and leaves the descriptor entirely
unchanged on any other constraint type. -/
theorem set_constraint_rule (d : ColumnDef) (ct tn cn : String) :
    (ct = "PRIMARY KEY" → d.set_constraint ct tn cn = { d with is_primary_key := "YES" })
    ∧ (ct = "FOREIGN KEY" →
        d.set_constraint ct tn cn = { d with foreign_key := tn ++ "." ++ cn })
    ∧ (ct ≠ "PRIMARY KEY" → ct ≠ "FOREIGN KEY" → d.set_constraint ct tn cn = d) := by
  refine ⟨fun h => ?_, fun h => ?_, fun h1 h2 => ?_⟩ <;>
    simp_all [ColumnDef.set_constraint]

/-- Witness for C2 at concrete inputs, including a `UNIQUE` row that is
ignored and a foreign key built from the row's values rather than the
descriptor's own table. -/
theorem set_constraint_rule_witness :
    sampleDef.set_constraint "PRIMARY KEY" "customers" "id" =
      { sampleDef with is_primary_key := "YES" }
    ∧ sampleDef.set_constraint "FOREIGN KEY" "customers" "id" =
      { sampleDef with foreign_key := "customers.id" }
    ∧ sampleDef.set_constraint "UNIQUE" "customers" "id" = sampleDef := by
  refine ⟨(set_constraint_rule sampleDef "PRIMARY KEY" "customers" "id").1 rfl, ?_,
    (set_constraint_rule sampleDef "UNIQUE" "customers" "id").2.2
      (by decide) (by decide)⟩
  rw [(set_constraint_rule sampleDef "FOREIGN KEY" "customers" "id").2.1 rfl]
  decide

/-- C3: a `None` catalog default is stored as the empty string, any other
raw default value (including the explicit empty string) is stored
verbatim. -/
theorem default_value_rule (t c ty nl : String) :
    (ColumnDef.init t c ty nl none).columun_default = ""
    ∧ ∀ v : String, (ColumnDef.init t c ty nl (some v)).columun_default = v := by
  constructor
  · rw [ColumnDef.init, set_column_type_columun_default]
    rfl
  · intro v
    rw [ColumnDef.init, set_column_type_columun_default]
    rfl

/-- C5: applying a column's constraint rows in order leaves
last-write-wins flags: `foreign_key` holds exactly the reference of the
last `FOREIGN KEY` row (earlier references are overwritten, nothing is
aggregated), and `is_primary_key` is `"YES"` whenever a `PRIMARY KEY`
row occurs. -/
theorem last_constraint_row_wins (d : ColumnDef) (rows : List ConstraintRow) :
    (∀ r : ConstraintRow,
        (rows.filter fun row => row.constraint_type = "FOREIGN KEY").getLast? = some r →
        (applyConstraints d rows).foreign_key =
          r.referenced_table_name ++ "." ++ r.referenced_column_name)
    ∧ ((rows.filter fun row => row.constraint_type = "FOREIGN KEY") = [] →
        (applyConstraints d rows).foreign_key = d.foreign_key)
    ∧ ((rows.filter fun row => row.constraint_type = "PRIMARY KEY") ≠ [] →
        (applyConstraints d rows).is_primary_key = "YES")
    ∧ ((rows.filter fun row => row.constraint_type = "PRIMARY KEY") = [] →
        (applyConstraints d rows).is_primary_key = d.is_primary_key) := by
  refine ⟨fun r hr => ?_, fun hnil => ?_, fun hne => ?_, fun hnil => ?_⟩
  · rw [applyConstraints_foreign_key, hr]
  · rw [applyConstraints_foreign_key, List.getLast?_eq_none_iff.mpr hnil]
  · rw [applyConstraints_is_primary_key, if_neg hne]
  · rw [applyConstraints_is_primary_key, if_pos hnil]

/-- Witness for C5: two `FOREIGN KEY` rows and one `PRIMARY KEY` row; the
second foreign key reference overwrites the first. -/
theorem last_constraint_row_wins_witness :
    (applyConstraints sampleDef sampleRows).foreign_key = "t2.c2"
    ∧ (applyConstraints sampleDef sampleRows).is_primary_key = "YES" := by
  constructor
  · rw [(last_constraint_row_wins sampleDef sampleRows).1
      { constraint_type := "FOREIGN KEY", referenced_table_name := "t2",
        referenced_column_name := "c2" } (by decide)]
    decide
  · exact (last_constraint_row_wins sampleDef sampleRows).2.2.1 (by decide)

/-- C10: `to_tuple` always returns the eight string fields in the fixed
order, after construction and after any sequence of `set_constraint`
calls, and every emitted data line is a tab-join of exactly eight
fields. -/
theorem to_tuple_eight_fields :
    (∀ d : ColumnDef,
        d.to_tuple.length = 8
        ∧ d.to_tuple = [d.table_name, d.column_name, d.column_type, d.column_size,
            d.is_nullable, d.columun_default, d.is_primary_key, d.foreign_key])
    ∧ (∀ (t c ty nl : String) (dflt : Option String) (rows : List ConstraintRow),
        (applyConstraints (ColumnDef.init t c ty nl dflt) rows).to_tuple.length = 8)
    ∧ (∀ (t : TableInfo) (c : ColumnRow), ∃ fields : List String,
        fields.length = 8 ∧ processColumn t c = String.intercalate "\t" fields) := by
  refine ⟨fun d => ⟨rfl, rfl⟩, fun t c ty nl dflt rows => rfl, fun t c => ?_⟩
  exact ⟨(applyConstraints
      (ColumnDef.init t.table_name c.column_name c.column_type c.is_nullable
        c.column_default) (t.usages c.column_name)).to_tuple, rfl, rfl⟩

/-- C7 counterexample: when the connection attempt fails, output has
already been produced — the header row was printed before
`create_connection` was entered, so the output on a `ConnectionError` run
is not empty. -/
theorem connection_error_output_not_empty :
    main_run none = [headerLine] ∧ main_run none ≠ [] :=
  ⟨rfl, List.cons_ne_nil _ _⟩

/-- C7 amended: a failed connection aborts the run after exactly the
header row has been printed on standard output; no data line is
produced. -/
theorem connection_error_header_only : main_run none = [headerLine] := rfl

/-- C4: the driver emits the header line first and then exactly one
tab-joined data line per (base table, column) pair, in catalog table
order and declaration column order; the data-line count is the sum of the
tables' column counts and is unchanged by replacing every table's
constraint rows (constraint fan-out does not duplicate rows). -/
theorem driver_output_shape (tables : List TableInfo) :
    main_run (some tables) =
      headerLine :: (tables.flatMap fun t => t.columns.map (processColumn t))
    ∧ (main_run (some tables)).length =
        1 + (tables.map fun t => t.columns.length).sum
    ∧ ∀ f : TableInfo → String → List ConstraintRow,
        (main_run (some (tables.map fun t => { t with usages := f t }))).length =
          (main_run (some tables)).length := by
  refine ⟨rfl, ?_, fun f => ?_⟩
  · simp [main_run, List.length_flatMap, Function.comp_def, List.length_map, Nat.add_comm]
  · simp [main_run, List.length_flatMap, List.map_map, Function.comp_def]

/-- Cursor numbers in `colsTrace` are at least the starting number, so
cursor 0 is never closed there when numbering starts at 1 or later. -/
theorem closeCur_zero_not_in_colsTrace :
    ∀ (k n : Nat), 1 ≤ n → REvent.closeCur 0 ∉ colsTrace n k := by
  intro k
  induction k with
  | zero => intro n _ h; simp [colsTrace] at h
  | succ k ih =>
    intro n hn h
    simp only [colsTrace, List.mem_cons] at h
    rcases h with h | h | h
    · cases h
    · cases h; omega
    · exact ih (n + 1) (by omega) h

/-- Cursor numbers in `tablesTrace` are at least the starting number, so
cursor 0 is never closed there when numbering starts at 1. -/
theorem closeCur_zero_not_in_tablesTrace :
    ∀ (ts : List TableInfo) (n : Nat), 1 ≤ n →
      REvent.closeCur 0 ∉ tablesTrace ts n := by
  intro ts
  induction ts with
  | nil => intro n _ h; simp [tablesTrace] at h
  | cons t ts ih =>
    intro n hn h
    simp only [tablesTrace, List.mem_cons, List.mem_append] at h
    rcases h with h | h | h | h
    · cases h
    · cases h; omega
    · exact closeCur_zero_not_in_colsTrace t.columns.length (n + 1) (by omega) h
    · exact ih (n + 1 + t.columns.length) (by omega) h

/-- C6 is violated by the code: on every run, even one that completes
normally, the `TableDao` cursor (cursor 0) is acquired but never
released, because `TableDao.find_by_table_schema`'s `finally` clause
reads `cursor.close` without calling it. -/
theorem table_cursor_never_closed (tables : List TableInfo) :
    REvent.openCur 0 ∈ main_resource_trace tables
    ∧ REvent.closeCur 0 ∉ main_resource_trace tables := by
  constructor
  · simp [main_resource_trace]
  · intro h
    simp only [main_resource_trace, List.mem_cons, List.mem_append] at h
    rcases h with h | h | h | h
    · cases h
    · cases h
    · exact closeCur_zero_not_in_tablesTrace tables 1 (by omega) h
    · simp at h

/-- C8: the CLI takes one required positional `database` plus options
defaulting to the current OS user, empty password, host `localhost`, and
port `3306`; a missing positional or an unknown flag is a parse error and
the process produces no stdout output and never reaches the connection. -/
theorem cli_surface :
    parse_args "alice" ["mydb"] =
      Except.ok { user := "alice", password := "", port := "3306",
                  host := "localhost", database := "mydb" }
    ∧ parse_args "alice" ["-u", "bob", "-p", "pw", "-H", "h1", "-P", "1234", "mydb"] =
      Except.ok { user := "bob", password := "pw", port := "1234",
                  host := "h1", database := "mydb" }
    ∧ (∀ current_user : String,
        (parse_args current_user []).isOk = false
        ∧ ∀ conn, run_cli current_user [] conn = [])
    ∧ (∀ current_user : String,
        (parse_args current_user ["--bogus", "mydb"]).isOk = false
        ∧ ∀ conn, run_cli current_user ["--bogus", "mydb"] conn = []) := by
  refine ⟨?_, ?_, fun current_user => ⟨?_, fun conn => ?_⟩,
    fun current_user => ⟨?_, fun conn => ?_⟩⟩ <;> rfl

/-- A list whose `getLast?` is `some a` contains `a`. -/
theorem mem_of_getLast?_eq_some {α : Type} {l : List α} {a : α}
    (h : l.getLast? = some a) : a ∈ l := by
  obtain ⟨hne, heq⟩ := List.mem_getLast?_eq_getLast h
  exact heq ▸ List.getLast_mem hne

/-- On newline-free input the trailing-newline handling and the
`.*`-cannot-cross-newlines side condition of `reMatchTail` are inert. -/
theorem reMatchTail_no_newline (cs : List Char) (h : '\n' ∉ cs) :
    reMatchTail cs = if cs.getLast? = some ')' then some cs.dropLast else none := by
  have h1 : ¬ cs.getLast? = some '\n' := fun hc => h (mem_of_getLast?_eq_some hc)
  have h2 : '\n' ∉ cs.dropLast := fun hc => h ((List.dropLast_sublist cs).mem hc)
  unfold reMatchTail
  simp only [if_neg h1]
  by_cases hq : cs.getLast? = some ')'
  · rw [if_pos ⟨hq, h2⟩, if_pos hq]
  · rw [if_neg (fun hx => hq hx.1), if_neg hq]

/-- Candidate split positions on newline-free input: position `k` works
iff at least one character precedes it, it holds `(`, and the remainder
after it ends in `)`. -/
theorem mem_splitCandidates (cs : List Char) (h : '\n' ∉ cs) (k : Nat) :
    k ∈ splitCandidates cs ↔
      1 ≤ k ∧ cs[k]? = some '(' ∧ (cs.drop (k + 1)).getLast? = some ')' := by
  have hnd : '\n' ∉ cs.drop (k + 1) := fun hc => h ((List.drop_sublist _ _).mem hc)
  unfold splitCandidates
  rw [List.mem_filter, List.mem_range, decide_eq_true_iff]
  constructor
  · rintro ⟨_, h1, h2, _, h4⟩
    refine ⟨h1, h2, ?_⟩
    rw [reMatchTail_no_newline _ hnd] at h4
    by_cases hq : (cs.drop (k + 1)).getLast? = some ')'
    · exact hq
    · rw [if_neg hq] at h4
      cases h4
  · rintro ⟨h1, h2, h3⟩
    have hklen : k < cs.length := by
      rw [List.getElem?_eq_some] at h2
      exact h2.1
    refine ⟨hklen, h1, h2, fun hc => h ((List.take_sublist _ _).mem hc), ?_⟩
    rw [reMatchTail_no_newline _ hnd, if_pos h3]
    rfl

/-- In a strictly increasing list every member is at most the last
element. -/
theorem sorted_le_getLast :
    ∀ (l : List Nat), l.Pairwise (· < ·) →
      ∀ x ∈ l, ∀ m, l.getLast? = some m → x ≤ m
  | [], _, x, hx, _, _ => absurd hx (List.not_mem_nil x)
  | [a], _, x, hx, m, hm => by
    have hx' : x = a := by simpa using hx
    have hm' : m = a := by simpa using hm.symm
    omega
  | a :: b :: t, hs, x, hx, m, hm => by
    rw [List.getLast?_cons_cons] at hm
    rcases List.mem_cons.mp hx with rfl | hx'
    · exact le_of_lt ((List.pairwise_cons.mp hs).1 m (mem_of_getLast?_eq_some hm))
    · exact sorted_le_getLast (b :: t) hs.of_cons x hx' m hm

/-- `splitCandidates` is strictly increasing, so its last element bounds
every candidate. -/
theorem le_of_mem_splitCandidates (cs : List Char) (j k : Nat)
    (hj : j ∈ splitCandidates cs) (hk : (splitCandidates cs).getLast? = some k) :
    j ≤ k := by
  have hsorted : (splitCandidates cs).Pairwise (· < ·) :=
    (List.pairwise_lt_range cs.length).filter _
  exact sorted_le_getLast _ hsorted j hj k hk

/-- Dropping fewer elements than the length preserves the last element. -/
theorem getLast?_drop_of_lt {α : Type} (l : List α) (n : Nat) (h : n < l.length) :
    (l.drop n).getLast? = l.getLast? := by
  have hne : l.drop n ≠ [] := by
    rw [ne_eq, List.drop_eq_nil_iff]
    omega
  conv_rhs => rw [← List.take_append_drop n l]
  rw [List.getLast?_append_of_ne_nil _ hne]

/-- If any candidate split position exists, the match succeeds. -/
theorem column_type_match_isSome_of_candidate (cs : List Char) (h : '\n' ∉ cs)
    (k : Nat) (hk : k ∈ splitCandidates cs) :
    (column_type_match cs).isSome = true := by
  have hne : splitCandidates cs ≠ [] := List.ne_nil_of_mem hk
  unfold column_type_match
  cases hq : (splitCandidates cs).getLast? with
  | none => exact absurd (List.getLast?_eq_none_iff.mp hq) hne
  | some m =>
    have hm : m ∈ splitCandidates cs := mem_of_getLast?_eq_some hq
    rw [mem_splitCandidates cs h] at hm
    have hnd : '\n' ∉ cs.drop (m + 1) := fun hc => h ((List.drop_sublist _ _).mem hc)
    show (match reMatchTail (cs.drop (m + 1)) with
      | some g2 => some (cs.take m, g2)
      | none => none).isSome = true
    rw [reMatchTail_no_newline _ hnd, if_pos hm.2.2]
    rfl

/-- Soundness of the match: a successful match of `^(.+)\((.*)\)$`
decomposes the input as `group1 ++ "(" ++ group2 ++ ")"`, with `group1`
the nonempty part before the chosen split position, which is the last
candidate. -/
theorem column_type_match_sound (cs : List Char) (h : '\n' ∉ cs)
    (g1 g2 : List Char) (hm : column_type_match cs = some (g1, g2)) :
    ∃ k, 1 ≤ k ∧ g1 = cs.take k ∧ g1.length = k
      ∧ (splitCandidates cs).getLast? = some k
      ∧ cs = g1 ++ '(' :: (g2 ++ [')']) := by
  unfold column_type_match at hm
  cases hq : (splitCandidates cs).getLast? with
  | none => rw [hq] at hm; cases hm
  | some k =>
    rw [hq] at hm
    have hk : k ∈ splitCandidates cs := mem_of_getLast?_eq_some hq
    rw [mem_splitCandidates cs h] at hk
    obtain ⟨h1, h2, h3⟩ := hk
    have hnd : '\n' ∉ cs.drop (k + 1) := fun hc => h ((List.drop_sublist _ _).mem hc)
    replace hm : (match reMatchTail (cs.drop (k + 1)) with
      | some g2 => some (cs.take k, g2)
      | none => none) = some (g1, g2) := hm
    rw [reMatchTail_no_newline _ hnd, if_pos h3] at hm
    have hklen : k < cs.length := by
      rw [List.getElem?_eq_some] at h2
      exact h2.1
    obtain ⟨rfl, rfl⟩ : cs.take k = g1 ∧ (cs.drop (k + 1)).dropLast = g2 := by
      have := Option.some.inj hm
      exact ⟨congrArg Prod.fst this, congrArg Prod.snd this⟩
    refine ⟨k, h1, rfl, ?_, rfl, ?_⟩
    · exact List.length_take_of_le (le_of_lt hklen)
    · have hcs : cs = cs.take k ++ cs.drop k := (List.take_append_drop k cs).symm
      have hdrop : cs.drop k = '(' :: cs.drop (k + 1) := by
        rw [List.drop_eq_getElem_cons hklen]
        have hh := List.getElem?_eq_getElem hklen
        rw [h2] at hh
        rw [(Option.some.inj hh).symm]
      have htail : (cs.drop (k + 1)).dropLast ++ [')'] = cs.drop (k + 1) :=
        List.dropLast_append_getLast? ')' h3
      nth_rewrite 1 [hcs]
      rw [hdrop, htail]

/-- Completeness of the match: any decomposition
`base ++ "(" ++ mid ++ ")"` with nonempty newline-free `base` makes the
regex succeed. -/
theorem column_type_match_complete (cs : List Char) (h : '\n' ∉ cs)
    (base mid : List Char) (hb : base ≠ [])
    (hcs : cs = base ++ '(' :: (mid ++ [')'])) :
    (column_type_match cs).isSome = true := by
  have hk : base.length ∈ splitCandidates cs := by
    rw [mem_splitCandidates cs h]
    refine ⟨List.length_pos.mpr hb, ?_, ?_⟩
    · rw [hcs, List.getElem?_append_right (le_refl base.length)]
      simp
    · have hre : cs = (base ++ ['(']) ++ (mid ++ [')']) := by
        rw [hcs]
        simp
      rw [hre]
      have hlen : base.length + 1 = (base ++ ['(']).length := by
        simp
      rw [hlen, List.drop_left]
      exact List.getLast?_concat mid
  exact column_type_match_isSome_of_candidate cs h base.length hk

/-- Greediness: the split happens at the *last* `(`, so group 2 never
contains an opening parenthesis. -/
theorem column_type_match_greedy (cs : List Char) (h : '\n' ∉ cs)
    (g1 g2 : List Char) (hm : column_type_match cs = some (g1, g2)) :
    '(' ∉ g2 := by
  intro hmem
  obtain ⟨k, h1, hg1, hlen, hlast, hdecomp⟩ := column_type_match_sound cs h g1 g2 hm
  obtain ⟨j, hj, hjval⟩ := List.getElem_of_mem hmem
  have hcs_last : cs.getLast? = some ')' := by
    have : cs = (g1 ++ '(' :: g2) ++ [')'] := by
      rw [hdecomp]
      simp
    rw [this]
    exact List.getLast?_concat _
  have hlen_cs : cs.length = k + g2.length + 2 := by
    rw [hdecomp]
    simp
    omega
  have hkj : cs[k + 1 + j]? = some '(' := by
    rw [hdecomp, List.getElem?_append_right (by omega)]
    have : k + 1 + j - g1.length = j + 1 := by omega
    rw [this, List.getElem?_cons_succ, List.getElem?_append_left hj,
      List.getElem?_eq_getElem hj, hjval]
  have hkmem : k + 1 + j ∈ splitCandidates cs := by
    rw [mem_splitCandidates cs h]
    refine ⟨by omega, hkj, ?_⟩
    rw [getLast?_drop_of_lt cs (k + 1 + j + 1) (by omega)]
    exact hcs_last
  have := le_of_mem_splitCandidates cs (k + 1 + j) k hkmem hlast
  omega

/-- C1: a declared type of the form `base(size)` — the whole string ending
with the closing parenthesis — is split by `set_column_type` into a
nonempty base stored in `column_type` and the raw inner content stored in
`column_size`; a declared type admitting no such decomposition is stored
unchanged with an empty `column_size`. -/
theorem set_column_type_rule (d : ColumnDef) (s : String) (hnl : '\n' ∉ s.data) :
    ((∃ base size : String, base ≠ "" ∧ s = base ++ "(" ++ size ++ ")") →
      ∃ base size : String, base ≠ "" ∧ s = base ++ "(" ++ size ++ ")"
        ∧ (d.set_column_type s).column_type = base
        ∧ (d.set_column_type s).column_size = size)
    ∧ ((¬ ∃ base size : String, base ≠ "" ∧ s = base ++ "(" ++ size ++ ")") →
      (d.set_column_type s).column_type = s
        ∧ (d.set_column_type s).column_size = "") := by
  have hbridge : ∀ b z : String, (s = b ++ "(" ++ z ++ ")") ↔
      s.data = b.data ++ '(' :: (z.data ++ [')']) := by
    intro b z
    rw [String.ext_iff]
    have hpo : ("(" : String).data = ['('] := rfl
    have hpc : (")" : String).data = [')'] := rfl
    simp [String.data_append, hpo, hpc, List.append_assoc]
  constructor
  · rintro ⟨base, size, hb, hs⟩
    rw [hbridge base size] at hs
    have hbd : base.data ≠ [] := by
      intro hc
      apply hb
      rw [String.ext_iff, hc]
    have hsome := column_type_match_complete s.data hnl base.data size.data hbd hs
    obtain ⟨p, hm⟩ := Option.isSome_iff_exists.mp hsome
    obtain ⟨g1, g2⟩ := p
    obtain ⟨k, hk1, hg1, hg1len, hlast, hdecomp⟩ :=
      column_type_match_sound s.data hnl g1 g2 hm
    refine ⟨String.mk g1, String.mk g2, ?_, ?_, ?_, ?_⟩
    · intro hc
      rw [String.ext_iff] at hc
      have hnil : g1 = [] := hc
      rw [hnil] at hg1len
      simp at hg1len
      omega
    · rw [hbridge]
      exact hdecomp
    · simp [ColumnDef.set_column_type, hm]
    · simp [ColumnDef.set_column_type, hm]
  · intro hno
    cases hq : column_type_match s.data with
    | none => constructor <;> simp [ColumnDef.set_column_type, hq]
    | some p =>
      obtain ⟨g1, g2⟩ := p
      exfalso
      obtain ⟨k, hk1, hg1, hg1len, hlast, hdecomp⟩ :=
        column_type_match_sound s.data hnl g1 g2 hq
      have hgne : String.mk g1 ≠ "" := by
        intro hc
        rw [String.ext_iff] at hc
        have hnil : g1 = [] := hc
        rw [hnil] at hg1len
        simp at hg1len
        omega
      exact hno ⟨String.mk g1, String.mk g2, hgne, (hbridge _ _).mpr hdecomp⟩

/-- Witness for C1 at `"decimal(10,2)"`: the inner content `"10,2"` of a
decimal declaration is kept raw. -/
theorem set_column_type_rule_witness :
    ∃ base size : String, base ≠ "" ∧ "decimal(10,2)" = base ++ "(" ++ size ++ ")"
      ∧ (sampleDef.set_column_type "decimal(10,2)").column_type = base
      ∧ (sampleDef.set_column_type "decimal(10,2)").column_size = size :=
  (set_column_type_rule sampleDef "decimal(10,2)" (by decide)).1
    ⟨"decimal", "10,2", by decide, by decide⟩

/-- C9: the declared type is split iff it ends with `)` and holds a `(`
preceded by at least one character; the greedy match uses the last such
`(` (group 2 never contains `(`), so `"a(b)(c)"` splits into `"a(b)"` and
`"c"`, and a parenthesized group not at the end of the string, as in
`"int(11) unsigned"`, prevents any split. -/
theorem set_column_type_greedy_last_paren (s : String) (hnl : '\n' ∉ s.data) :
    ((column_type_match s.data).isSome = true ↔
      s.data.getLast? = some ')' ∧ ∃ k, 1 ≤ k ∧ s.data[k]? = some '(')
    ∧ (∀ g1 g2 : List Char, column_type_match s.data = some (g1, g2) →
      '(' ∉ g2 ∧ s.data = g1 ++ '(' :: (g2 ++ [')']))
    ∧ (∀ d : ColumnDef,
      ((d.set_column_type "a(b)(c)").column_type = "a(b)"
        ∧ (d.set_column_type "a(b)(c)").column_size = "c")
      ∧ ((d.set_column_type "int(11) unsigned").column_type = "int(11) unsigned"
        ∧ (d.set_column_type "int(11) unsigned").column_size = "")) := by
  refine ⟨⟨?_, ?_⟩, ?_, ?_⟩
  · intro hsome
    obtain ⟨p, hm⟩ := Option.isSome_iff_exists.mp hsome
    obtain ⟨g1, g2⟩ := p
    obtain ⟨k, hk1, hg1, hg1len, hlast, hdecomp⟩ :=
      column_type_match_sound s.data hnl g1 g2 hm
    constructor
    · rw [show s.data = (g1 ++ '(' :: g2) ++ [')'] from by rw [hdecomp]; simp]
      exact List.getLast?_concat _
    · refine ⟨k, hk1, ?_⟩
      rw [hdecomp, ← hg1len, List.getElem?_append_right (le_refl _)]
      simp
  · rintro ⟨hlast, k, hk1, hkp⟩
    have hklen : k < s.data.length := by
      rw [List.getElem?_eq_some] at hkp
      exact hkp.1
    have hklt : k + 1 < s.data.length := by
      rcases Nat.lt_or_ge (k + 1) s.data.length with h | h
      · exact h
      · exfalso
        rw [List.getLast?_eq_getElem? _] at hlast
        have hix : s.data.length - 1 = k := by omega
        rw [hix, hkp] at hlast
        simp at hlast
    have hmem : k ∈ splitCandidates s.data := by
      rw [mem_splitCandidates s.data hnl]
      refine ⟨hk1, hkp, ?_⟩
      rw [getLast?_drop_of_lt _ _ hklt]
      exact hlast
    exact column_type_match_isSome_of_candidate s.data hnl k hmem
  · intro g1 g2 hm
    obtain ⟨k, _, _, _, _, hdecomp⟩ := column_type_match_sound s.data hnl g1 g2 hm
    exact ⟨column_type_match_greedy s.data hnl g1 g2 hm, hdecomp⟩
  · intro d
    refine ⟨⟨?_, ?_⟩, ?_, ?_⟩ <;> rfl

/-- Witness for C9 at `"a(b)(c)"`: the iff instantiated at a concrete
string, plus the concrete greedy split. -/
theorem set_column_type_greedy_last_paren_witness :
    ((column_type_match "a(b)(c)".data).isSome = true ↔
      "a(b)(c)".data.getLast? = some ')'
        ∧ ∃ k, 1 ≤ k ∧ "a(b)(c)".data[k]? = some '(')
    ∧ (sampleDef.set_column_type "a(b)(c)").column_type = "a(b)" :=
  ⟨(set_column_type_greedy_last_paren "a(b)(c)" (by decide)).1,
    ((set_column_type_greedy_last_paren "a(b)(c)" (by decide)).2.2 sampleDef).1.1⟩
